import Mathlib

/-
Verification of the `count_pulses_with_pause` pulse-counting channel
(`src/count_pulses_with_pause/count_pulses_with_pause.cpp`).

The host-side core is the class `CountPulsesWithPause`: per-channel counters
(`_current_pulse_count`, `_cumulative_pulse_count`, `_report_count`, all
`uint32_t`), a bound PIO state machine `sm`, class-level statics
(`is_program_loaded`, `offset`), and the polling loop in `main`.

Embedding choices:
- The PIO block's Rx FIFOs are modelled as a map from state-machine index to
  the list of raw pulse counts queued there (oldest first).  The SDK calls
  `pio_sm_get_rx_fifo_level`, `pio_sm_get`, `pio_sm_clear_fifos` are modelled
  on that map, per the external-interface contract (depth / pop-oldest /
  discard-all with no other effect).
- `uint32_t` counters are `Nat` with arithmetic taken modulo `2^32` exactly
  where the C code can wrap.
- The do-while drain loop of `read_pulses` is embedded structurally on the
  FIFO contents (`drainLoop`); a fuel-indexed version that performs one
  `pio_sm_get` per iteration and re-checks the level, exactly as the C loop
  does, is given as `drainLoopFuel` and proved to terminate and agree.
-/

namespace CountPulses

/-- Modulus of the unsigned 32-bit counters (`2^32`). -/
def U32 : Nat := 4294967296

/-- The Rx FIFOs of the PIO block: for each state machine index, the queue of
raw completed-train pulse counts the decode program has pushed, oldest first. -/
def RxFifos : Type := Nat → List Nat

/-- Replace the FIFO of state machine `sm` with `q`, leaving all others. -/
def setFifo (f : RxFifos) (sm : Nat) (q : List Nat) : RxFifos :=
  fun i => if i = sm then q else f i

/-- SDK `pio_sm_get_rx_fifo_level`: number of entries in `sm`'s Rx FIFO.
Side-effect free. -/
def pio_sm_get_rx_fifo_level (f : RxFifos) (sm : Nat) : Nat :=
  (f sm).length

/-- SDK `pio_sm_get`: pop and return the oldest entry of `sm`'s Rx FIFO.
Callers check the level first; on an empty FIFO the returned value is
unspecified (modelled as 0, never relied on). -/
def pio_sm_get (f : RxFifos) (sm : Nat) : Nat × RxFifos :=
  ((f sm).headD 0, setFifo f sm (f sm).tail)

/-- SDK `pio_sm_clear_fifos`: discard every entry of `sm`'s FIFO. -/
def pio_sm_clear_fifos (f : RxFifos) (sm : Nat) : RxFifos :=
  setFifo f sm []

/-- Per-channel state of the C++ class `CountPulsesWithPause`: the bound state
machine and the three `uint32_t` counters (kept `< 2^32` by construction). -/
structure CountPulsesWithPause where
  sm : Nat
  current_pulse_count : Nat
  cumulative_pulse_count : Nat
  report_count : Nat
deriving DecidableEq

/-- Counter state established by the constructor: all three counts zero. -/
def initChannel (sm : Nat) : CountPulsesWithPause :=
  { sm := sm, current_pulse_count := 0, cumulative_pulse_count := 0, report_count := 0 }

/-- The do-while body of `read_pulses`, on the contents of the channel's FIFO:
pop the head into the running pulse sum, bump the report count, and continue
while entries remain.  Each `uint32_t` update wraps modulo `2^32`.  Returns the
final (`_current_pulse_count`, `_report_count`).  (`read_pulses` only enters
the loop on a non-empty FIFO, so the `[]` case is never reached from it.) -/
def drainLoop : List Nat → Nat → Nat → Nat × Nat
  | [], cur, rep => (cur, rep)
  | v :: rest, cur, rep =>
    let cur2 := (cur + v) % U32
    let rep2 := (rep + 1) % U32
    if rest.length > 0 then drainLoop rest cur2 rep2 else (cur2, rep2)

/-- `CountPulsesWithPause::read_pulses`: reset `_current_pulse_count` to 0;
if the FIFO holds no entry, return `false`; otherwise drain the FIFO to
empty, summing into `_current_pulse_count` and bumping `_report_count` per
pop, then add the drained sum into `_cumulative_pulse_count` and return
`true`.  Result: (return value, new channel state, new FIFOs). -/
def read_pulses (ch : CountPulsesWithPause) (f : RxFifos) :
    Bool × CountPulsesWithPause × RxFifos :=
  let ch0 := { ch with current_pulse_count := 0 }
  if pio_sm_get_rx_fifo_level f ch.sm < 1 then
    (false, ch0, f)
  else
    let r := drainLoop (f ch.sm) 0 ch.report_count
    (true,
      { ch with
          current_pulse_count := r.1,
          cumulative_pulse_count := (ch.cumulative_pulse_count + r.1) % U32,
          report_count := r.2 },
      setFifo f ch.sm [])

/-- `CountPulsesWithPause::get_current`. -/
def get_current (ch : CountPulsesWithPause) : Nat :=
  ch.current_pulse_count

/-- `CountPulsesWithPause::get_cumulative`. -/
def get_cumulative (ch : CountPulsesWithPause) : Nat :=
  ch.cumulative_pulse_count

/-- `CountPulsesWithPause::get_report_count`. -/
def get_report_count (ch : CountPulsesWithPause) : Nat :=
  ch.report_count

/-- `CountPulsesWithPause::clear_queues`: calls `pio_sm_clear_fifos` on the
channel's state machine; the method body touches no data member, so the
channel record is returned unchanged. -/
def clear_queues (ch : CountPulsesWithPause) (f : RxFifos) :
    CountPulsesWithPause × RxFifos :=
  (ch, pio_sm_clear_fifos f ch.sm)

/-- The shared PIO instruction memory, seen as the allocator behind the SDK
call `pio_add_program`: how many times a load has been performed, and the
offset the next load would receive. -/
structure PioInstrMem where
  load_count : Nat
  next_offset : Nat
deriving DecidableEq

/-- SDK `pio_add_program`: load the decode program into the shared instruction
memory once and return its offset (the external-interface contract: allocate,
return the program's location). -/
def pio_add_program (mem : PioInstrMem) : Nat × PioInstrMem :=
  (mem.next_offset,
   { load_count := mem.load_count + 1, next_offset := mem.next_offset + 1 })

/-- The class-level statics of `CountPulsesWithPause`:
`static bool is_program_loaded` and `static uint offset`. -/
structure ProgramStatics where
  is_program_loaded : Bool
  offset : Nat
deriving DecidableEq

/-- Initial values of the statics: `is_program_loaded = false; offset = 0`. -/
def initStatics : ProgramStatics :=
  { is_program_loaded := false, offset := 0 }

/-- Fresh instruction memory: no load performed yet. -/
def initInstrMem : PioInstrMem :=
  { load_count := 0, next_offset := 0 }

/-- The load-once logic in the constructor: `if (!is_program_loaded) { offset =
pio_add_program(...); is_program_loaded = true; }`. -/
def constructor_load (s : ProgramStatics) (mem : PioInstrMem) :
    ProgramStatics × PioInstrMem :=
  if s.is_program_loaded then (s, mem)
  else
    let r := pio_add_program mem
    ({ is_program_loaded := true, offset := r.1 }, r.2)

/-- `n` channel constructions in sequence.  Returns the final statics, the
final instruction memory, and, for each construction, the program offset it
referenced when configuring its state machine (`pio_sm_init(pio, sm, offset,
&c)` reads the static `offset` after the load-once block). -/
def constructMany : Nat → ProgramStatics → PioInstrMem →
    ProgramStatics × PioInstrMem × List Nat
  | 0, s, mem => (s, mem, [])
  | n + 1, s, mem =>
    let r := constructor_load s mem
    let rest := constructMany n r.1 r.2
    (rest.1, rest.2.1, r.1.offset :: rest.2.2)

/-- The two channels of `main` (`pulse_counter_up`, `pulse_counter_down`) and
the shared PIO block's FIFOs. -/
structure TwoChannelSystem where
  pulse_counter_up : CountPulsesWithPause
  pulse_counter_down : CountPulsesWithPause
  fifos : RxFifos

/-- `pulse_counter_up.read_pulses()` inside the main loop: drain the up
channel against the shared FIFOs. -/
def drain_up (sys : TwoChannelSystem) : Bool × TwoChannelSystem :=
  let r := read_pulses sys.pulse_counter_up sys.fifos
  (r.1, { sys with pulse_counter_up := r.2.1, fifos := r.2.2 })

/-- `pulse_counter_down.read_pulses()` inside the main loop: drain the down
channel against the shared FIFOs. -/
def drain_down (sys : TwoChannelSystem) : Bool × TwoChannelSystem :=
  let r := read_pulses sys.pulse_counter_down sys.fifos
  (r.1, { sys with pulse_counter_down := r.2.1, fifos := r.2.2 })

/-- Observable outcome of one iteration of the `while (true)` loop in `main`:
which channels reported, how long the iteration slept, and the new state. -/
structure PassResult where
  ok_up : Bool
  ok_down : Bool
  slept_ms : Nat
  sys : TwoChannelSystem

/-- One iteration of the polling loop in `main`: try `read_pulses` on the up
channel, then on the down channel (each success prints a report), then
unconditionally print the sleep notice and `sleep_ms(1000)`. -/
def mainLoopPass (sys : TwoChannelSystem) : PassResult :=
  let ru := drain_up sys
  let rd := drain_down ru.2
  { ok_up := ru.1, ok_down := rd.1, slept_ms := 1000, sys := rd.2 }

/-- The drain loop of `read_pulses` exactly as the C code iterates it — one
`pio_sm_get` per iteration, then a re-check of the FIFO level — indexed by
fuel; `none` means the fuel ran out before the loop exited. -/
def drainLoopFuel : Nat → Nat → RxFifos → Nat → Nat →
    Option (Nat × Nat × RxFifos)
  | 0, _, _, _, _ => none
  | fuel + 1, sm, f, cur, rep =>
    let r := pio_sm_get f sm
    let cur2 := (cur + r.1) % U32
    let rep2 := (rep + 1) % U32
    if pio_sm_get_rx_fifo_level r.2 sm > 0 then
      drainLoopFuel fuel sm r.2 cur2 rep2
    else
      some (cur2, rep2, r.2)

/-- FIFOs with every queue empty. -/
def emptyFifos : RxFifos := fun _ => []

/-- A run of drains from a given channel state: before each drain the decode
unit has refilled the channel's FIFO with the corresponding list of raw
counts.  Returns the `_current_pulse_count` produced by each successful drain
(in order) and the final channel state. -/
def runTrace (ch : CountPulsesWithPause) :
    List (List Nat) → List Nat × CountPulsesWithPause
  | [] => ([], ch)
  | q :: qs =>
    let r := read_pulses ch (setFifo emptyFifos ch.sm q)
    let rest := runTrace r.2.1 qs
    (if r.1 then r.2.1.current_pulse_count :: rest.1 else rest.1, rest.2)

/-! Helper lemmas shared by the claim theorems. -/

theorem setFifo_self (f : RxFifos) (sm : Nat) (q : List Nat) :
    setFifo f sm q sm = q := by
  simp [setFifo]

theorem setFifo_other (f : RxFifos) (sm : Nat) (q : List Nat) (i : Nat)
    (h : i ≠ sm) : setFifo f sm q i = f i := by
  simp [setFifo, h]

theorem setFifo_setFifo (f : RxFifos) (sm : Nat) (q1 q2 : List Nat) :
    setFifo (setFifo f sm q1) sm q2 = setFifo f sm q2 := by
  funext i
  by_cases h : i = sm <;> simp [setFifo, h]

theorem drainLoop_eq (q : List Nat) : ∀ cur rep : Nat, q ≠ [] →
    drainLoop q cur rep = ((cur + q.sum) % U32, (rep + q.length) % U32) := by
  induction q with
  | nil => intro cur rep h; exact absurd rfl h
  | cons v rest ih =>
    intro cur rep _
    cases rest with
    | nil => simp [drainLoop]
    | cons w ws =>
      have hrec :
          drainLoop (v :: w :: ws) cur rep
            = drainLoop (w :: ws) ((cur + v) % U32) ((rep + 1) % U32) := by
        simp [drainLoop]
      rw [hrec, ih _ _ (by simp)]
      refine Prod.ext ?_ ?_ <;> simp [U32] <;> omega

theorem read_pulses_emptyCase (ch : CountPulsesWithPause) (f : RxFifos)
    (h : f ch.sm = []) :
    read_pulses ch f = (false, { ch with current_pulse_count := 0 }, f) := by
  simp [read_pulses, pio_sm_get_rx_fifo_level, h]

theorem read_pulses_successCase (ch : CountPulsesWithPause) (f : RxFifos)
    (h : f ch.sm ≠ []) :
    read_pulses ch f =
      (true,
       { ch with
           current_pulse_count := (f ch.sm).sum % U32,
           cumulative_pulse_count :=
             (ch.cumulative_pulse_count + (f ch.sm).sum % U32) % U32,
           report_count := (ch.report_count + (f ch.sm).length) % U32 },
       setFifo f ch.sm []) := by
  have hlen : ¬ pio_sm_get_rx_fifo_level f ch.sm < 1 := by
    simp [pio_sm_get_rx_fifo_level, Nat.lt_one_iff, List.length_eq_zero]
    exact h
  rw [read_pulses, if_neg hlen, drainLoop_eq _ _ _ h]
  simp

theorem read_pulses_fifo_frame (ch : CountPulsesWithPause) (f : RxFifos)
    (i : Nat) (h : i ≠ ch.sm) : (read_pulses ch f).2.2 i = f i := by
  by_cases hq : f ch.sm = []
  · rw [read_pulses_emptyCase ch f hq]
  · rw [read_pulses_successCase ch f hq]
    exact setFifo_other f ch.sm [] i h

/-- Concrete FIFO contents for witnesses: state machine 0 holds `[3, 2]`,
every other FIFO is empty. -/
def fifosA : RxFifos := fun i => if i = 0 then [3, 2] else []

/-- C1: whenever `read_pulses` returns success, the new `_current_pulse_count`
equals the sum of all raw values popped during that drain (the entire FIFO
content, as a `uint32_t`, i.e. mod 2^32), `_report_count` has increased by
exactly the number of values popped (mod 2^32), and the FIFO has been drained
to empty. -/
theorem c1_drain_success_sums_and_counts (ch : CountPulsesWithPause)
    (f : RxFifos) (h : (read_pulses ch f).1 = true) :
    (read_pulses ch f).2.1.current_pulse_count = (f ch.sm).sum % U32 ∧
    (read_pulses ch f).2.1.report_count
      = (ch.report_count + (f ch.sm).length) % U32 ∧
    (read_pulses ch f).2.2 ch.sm = [] := by
  have hne : f ch.sm ≠ [] := by
    intro hq
    rw [read_pulses_emptyCase ch f hq] at h
    simp at h
  rw [read_pulses_successCase ch f hne]
  exact ⟨rfl, rfl, setFifo_self f ch.sm []⟩

/-- Witness for C1 at the concrete state `initChannel 0` with FIFO `[3, 2]`. -/
theorem c1_witness :
    (read_pulses (initChannel 0) fifosA).1 = true ∧
    ((read_pulses (initChannel 0) fifosA).2.1.current_pulse_count
        = (fifosA (initChannel 0).sm).sum % U32 ∧
      (read_pulses (initChannel 0) fifosA).2.1.report_count
        = ((initChannel 0).report_count
            + (fifosA (initChannel 0).sm).length) % U32 ∧
      (read_pulses (initChannel 0) fifosA).2.2 (initChannel 0).sm = []) :=
  ⟨rfl, c1_drain_success_sums_and_counts (initChannel 0) fifosA rfl⟩

/-- C3: `read_pulses` on an empty queue returns failure, leaves
`_cumulative_pulse_count` and `_report_count` (and the FIFOs) unchanged, and
sets `_current_pulse_count` to 0. -/
theorem c3_drain_empty_queue (ch : CountPulsesWithPause) (f : RxFifos)
    (h : f ch.sm = []) :
    (read_pulses ch f).1 = false ∧
    (read_pulses ch f).2.1.cumulative_pulse_count = ch.cumulative_pulse_count ∧
    (read_pulses ch f).2.1.report_count = ch.report_count ∧
    (read_pulses ch f).2.1.current_pulse_count = 0 ∧
    (read_pulses ch f).2.2 = f := by
  rw [read_pulses_emptyCase ch f h]
  exact ⟨rfl, rfl, rfl, rfl, rfl⟩

/-- Witness for C3 at the concrete state `initChannel 0` with all FIFOs
empty. -/
theorem c3_witness :
    emptyFifos (initChannel 0).sm = [] ∧
    ((read_pulses (initChannel 0) emptyFifos).1 = false ∧
      (read_pulses (initChannel 0) emptyFifos).2.1.cumulative_pulse_count
        = (initChannel 0).cumulative_pulse_count ∧
      (read_pulses (initChannel 0) emptyFifos).2.1.report_count
        = (initChannel 0).report_count ∧
      (read_pulses (initChannel 0) emptyFifos).2.1.current_pulse_count = 0 ∧
      (read_pulses (initChannel 0) emptyFifos).2.2 = emptyFifos) :=
  ⟨rfl, c3_drain_empty_queue (initChannel 0) emptyFifos rfl⟩

theorem runTrace_cumulative (qs : List (List Nat)) :
    ∀ ch : CountPulsesWithPause, ch.cumulative_pulse_count < U32 →
      ((runTrace ch qs).2).cumulative_pulse_count
        = (ch.cumulative_pulse_count + ((runTrace ch qs).1).sum) % U32 := by
  induction qs with
  | nil =>
    intro ch hlt
    simp [runTrace, Nat.mod_eq_of_lt hlt]
  | cons q qs ih =>
    intro ch hlt
    by_cases hq : q = []
    · have hf : (setFifo emptyFifos ch.sm q) ch.sm = [] := by
        rw [setFifo_self]; exact hq
      have hr := read_pulses_emptyCase ch _ hf
      simp only [runTrace, hr]
      have h2 := ih { ch with current_pulse_count := 0 } (by simpa using hlt)
      simpa using h2
    · have hf : (setFifo emptyFifos ch.sm q) ch.sm = q := setFifo_self _ _ _
      have hr := read_pulses_successCase ch (setFifo emptyFifos ch.sm q)
        (by rw [hf]; exact hq)
      rw [hf] at hr
      simp only [runTrace, hr]
      have h2 := ih
        { ch with
            current_pulse_count := q.sum % U32,
            cumulative_pulse_count :=
              (ch.cumulative_pulse_count + q.sum % U32) % U32,
            report_count := (ch.report_count + q.length) % U32 }
        (by simpa using Nat.mod_lt _ (show 0 < U32 by decide))
      simp only at h2
      simp only [h2, List.sum_cons]
      simp [U32] at *
      omega

/-- C5: from construction, the cumulative count after a run of drains equals
the sum of the `_current_pulse_count` values produced by the successful drains
of that run, taken modulo 2^32. -/
theorem c5_cumulative_is_sum_of_currents (sm : Nat) (qs : List (List Nat)) :
    ((runTrace (initChannel sm) qs).2).cumulative_pulse_count
      = ((runTrace (initChannel sm) qs).1).sum % U32 := by
  have h := runTrace_cumulative qs (initChannel sm)
    (by simp [initChannel, U32])
  simpa [initChannel] using h

/-- Concrete system for the C2 counterexample: the up channel on state
machine 0 with FIFO `[3, 2]`, the down channel on state machine 1 with an
empty FIFO. -/
def sysA : TwoChannelSystem :=
  { pulse_counter_up := initChannel 0
    pulse_counter_down := initChannel 1
    fifos := fifosA }

/-- C2 counterexample: in the pass over `sysA` the up channel produced data
(`read_pulses` returned true), yet the driver still slept the fixed 1000 ms
interval — the next pass does not begin immediately, contrary to the claim. -/
theorem c2_counterexample :
    (mainLoopPass sysA).ok_up = true ∧
    (mainLoopPass sysA).slept_ms = 1000 ∧
    (mainLoopPass sysA).slept_ms ≠ 0 :=
  ⟨rfl, rfl, by decide⟩

/-- C2 (amended): every iteration of the polling loop sleeps the fixed
1000 ms interval before the next pass, whether or not any channel produced
data in that pass. -/
theorem c2_pass_always_sleeps (sys : TwoChannelSystem) :
    (mainLoopPass sys).slept_ms = 1000 := rfl

theorem constructMany_loaded (n : Nat) :
    ∀ (s : ProgramStatics) (mem : PioInstrMem), s.is_program_loaded = true →
      constructMany n s mem = (s, mem, List.replicate n s.offset) := by
  induction n with
  | zero => intro s mem _; rfl
  | succ n ih =>
    intro s mem h
    simp only [constructMany, constructor_load, h, if_true]
    rw [ih s mem h]
    simp [List.replicate_succ]

/-- C4: over any number `n` of channel constructions in one process, the
decode program is loaded into the PIO instruction memory at most once, and
the list of program offsets the constructions referenced is `n` copies of the
single static `offset`. -/
theorem c4_program_loaded_at_most_once (n : Nat) :
    (constructMany n initStatics initInstrMem).2.1.load_count ≤ 1 ∧
    (constructMany n initStatics initInstrMem).2.2
      = List.replicate n ((constructMany n initStatics initInstrMem).1.offset) := by
  cases n with
  | zero => exact ⟨Nat.zero_le 1, rfl⟩
  | succ n =>
    have h1 : constructor_load initStatics initInstrMem
        = ({ is_program_loaded := true, offset := 0 },
           { load_count := 1, next_offset := 1 }) := rfl
    have h2 : constructMany (n + 1) initStatics initInstrMem
        = ({ is_program_loaded := true, offset := 0 },
           { load_count := 1, next_offset := 1 },
           0 :: List.replicate n 0) := by
      simp only [constructMany, h1]
      rw [constructMany_loaded n _ _ rfl]
    rw [h2]
    exact ⟨Nat.le_refl 1, by simp [List.replicate_succ]⟩

/-- C6: `clear_queues` followed immediately by `read_pulses` (no producer
activity in between) always returns failure. -/
theorem c6_clear_then_drain_fails (ch : CountPulsesWithPause) (f : RxFifos) :
    (read_pulses (clear_queues ch f).1 (clear_queues ch f).2).1 = false := by
  have h : (clear_queues ch f).2 ((clear_queues ch f).1).sm = [] := by
    simp [clear_queues, pio_sm_clear_fifos, setFifo]
  rw [read_pulses_emptyCase _ _ h]

/-- C7: `clear_queues` empties the channel's FIFO, changes neither
`_cumulative_pulse_count` nor `_report_count`, and is idempotent: a second
call from the resulting state is the identity. -/
theorem c7_clear_discards_and_idempotent (ch : CountPulsesWithPause)
    (f : RxFifos) :
    (clear_queues ch f).2 ch.sm = [] ∧
    (clear_queues ch f).1.cumulative_pulse_count = ch.cumulative_pulse_count ∧
    (clear_queues ch f).1.report_count = ch.report_count ∧
    clear_queues (clear_queues ch f).1 (clear_queues ch f).2
      = clear_queues ch f := by
  refine ⟨setFifo_self f ch.sm [], rfl, rfl, ?_⟩
  unfold clear_queues pio_sm_clear_fifos
  rw [setFifo_setFifo]

/-- C8: with distinct state-machine ids, draining one channel changes neither
the other channel's counters nor the other channel's FIFO, in either
direction. -/
theorem c8_drain_independence (sys : TwoChannelSystem)
    (h : sys.pulse_counter_up.sm ≠ sys.pulse_counter_down.sm) :
    (drain_up sys).2.pulse_counter_down = sys.pulse_counter_down ∧
    (drain_up sys).2.fifos sys.pulse_counter_down.sm
      = sys.fifos sys.pulse_counter_down.sm ∧
    (drain_down sys).2.pulse_counter_up = sys.pulse_counter_up ∧
    (drain_down sys).2.fifos sys.pulse_counter_up.sm
      = sys.fifos sys.pulse_counter_up.sm := by
  refine ⟨rfl, ?_, rfl, ?_⟩
  · exact read_pulses_fifo_frame sys.pulse_counter_up sys.fifos _ (Ne.symm h)
  · exact read_pulses_fifo_frame sys.pulse_counter_down sys.fifos _ h

/-- Concrete system for the C8 witness: same shape as `main` builds — state
machines 0 and 1 on one PIO block. -/
def sysB : TwoChannelSystem :=
  { pulse_counter_up := initChannel 0
    pulse_counter_down := initChannel 1
    fifos := fifosA }

/-- Witness for C8 at the concrete system `sysB`. -/
theorem c8_witness :
    sysB.pulse_counter_up.sm ≠ sysB.pulse_counter_down.sm ∧
    ((drain_up sysB).2.pulse_counter_down = sysB.pulse_counter_down ∧
      (drain_up sysB).2.fifos sysB.pulse_counter_down.sm
        = sysB.fifos sysB.pulse_counter_down.sm ∧
      (drain_down sysB).2.pulse_counter_up = sysB.pulse_counter_up ∧
      (drain_down sysB).2.fifos sysB.pulse_counter_up.sm
        = sysB.fifos sysB.pulse_counter_up.sm) :=
  ⟨by decide, c8_drain_independence sysB (by decide)⟩

/-- C9: `clear_queues` leaves `_current_pulse_count` unchanged — `get_current`
returns the same value before and after the call. -/
theorem c9_clear_preserves_current (ch : CountPulsesWithPause) (f : RxFifos) :
    get_current (clear_queues ch f).1 = get_current ch := rfl

theorem drainLoopFuel_eq (q : List Nat) :
    ∀ (fuel sm : Nat) (f : RxFifos) (cur rep : Nat), f sm = q → q ≠ [] →
      q.length ≤ fuel →
      drainLoopFuel fuel sm f cur rep
        = some ((drainLoop q cur rep).1, (drainLoop q cur rep).2,
                setFifo f sm []) := by
  induction q with
  | nil => intro fuel sm f cur rep _ hne _; exact absurd rfl hne
  | cons v rest ih =>
    intro fuel sm f cur rep hf hne hlen
    cases fuel with
    | zero => simp at hlen
    | succ fuel =>
      have hget1 : (pio_sm_get f sm).1 = v := by simp [pio_sm_get, hf]
      have hget2 : (pio_sm_get f sm).2 = setFifo f sm rest := by
        simp [pio_sm_get, hf]
      simp only [drainLoopFuel, hget1, hget2, pio_sm_get_rx_fifo_level,
        setFifo_self]
      cases rest with
      | nil => simp [drainLoop]
      | cons w ws =>
        have hlen2 : (w :: ws).length ≤ fuel := by
          simp only [List.length_cons] at hlen ⊢
          omega
        rw [if_pos (by simp)]
        rw [ih fuel sm (setFifo f sm (w :: ws)) _ _ (setFifo_self _ _ _)
          (by simp) hlen2]
        rw [setFifo_setFifo]
        simp [drainLoop]

/-- C10: the drain-to-empty do-while loop of `read_pulses` terminates on any
finite FIFO content: with at least `(f sm).length` iterations of fuel — one
entry is popped per iteration — the fueled loop returns (it does not run out
of fuel), computing exactly the structural `drainLoop` result and leaving the
FIFO empty. -/
theorem c10_drain_loop_terminates (sm : Nat) (f : RxFifos)
    (cur rep fuel : Nat) (hne : f sm ≠ []) (hfuel : (f sm).length ≤ fuel) :
    drainLoopFuel fuel sm f cur rep
      = some ((drainLoop (f sm) cur rep).1, (drainLoop (f sm) cur rep).2,
              setFifo f sm []) :=
  drainLoopFuel_eq (f sm) fuel sm f cur rep rfl hne hfuel

/-- Witness for C10 at the concrete FIFOs `fifosA` with fuel 2. -/
theorem c10_witness :
    fifosA 0 ≠ [] ∧ (fifosA 0).length ≤ 2 ∧
    drainLoopFuel 2 0 fifosA 0 0
      = some ((drainLoop (fifosA 0) 0 0).1, (drainLoop (fifosA 0) 0 0).2,
              setFifo fifosA 0 []) :=
  ⟨by decide, by decide,
    c10_drain_loop_terminates 0 fifosA 0 0 2 (by decide) (by decide)⟩

end CountPulses

